import Mathlib

/-!
Shallow embedding of `opmd2VTK/pyvtk.py` (class `Opmd2VTK`), the pyvtk backend of
the opmd2VTK converter.

The file models the two public methods `write_fields_vtk` and `write_species_vtk`
and the private helper `_get_mesh_circ`.  Python's mutable instance state is passed
explicitly as a `Converter` value; raised exceptions become `PyErr` results; the
observable effects of a call (files written, extraction calls made) are returned
alongside the final state.  The helpers `_convert_field_vec_full`,
`_convert_field_scl`, `_convert_field_vec_comp` and `_convert_species` live in
`opmd2VTK/generic.py`, which is not part of the sources here; they are modelled
from the spec and marked as such in their doc comments.
-/

set_option autoImplicit false

/-- Python exceptions the embedded code can raise: `KeyError` from a metadata
lookup, `NameError` from an unbound local or global name, `IndexError` from
list indexing. -/
inductive PyErr : Type where
  | keyError (key : String)
  | nameError (missing : String)
  | indexError
deriving DecidableEq

/-- Opaque VTK mesh value (`vtk.StructuredPoints` / `vtk.StructuredGrid`); no claim
inspects the mesh geometry itself, only whether and when it is cached. -/
inductive Mesh : Type where
  | mk
deriving DecidableEq

/-- The `OpenPMDTimeSeries` collaborator (`self.ts`): available field and species
names, and per-field metadata.  A metadata lookup for an absent field is a Python
`KeyError`, modelled as `none`. -/
structure TimeSeries : Type where
  avail_fields : List String
  avail_species : List String
  fields_metadata : String → Option String

/-- Instance state of the `Opmd2VTK` converter object.  `path` comes from the
constructor (in `generic.py`); the remaining attributes are registered by the two
public methods.  `zmin_fixed` and `select` are stored opaquely and never computed
with inside `pyvtk.py`. -/
structure Converter : Type where
  ts : TimeSeries
  path : String
  iteration : Int
  zmin_fixed : Option Int
  CommonMesh : Bool
  Nth : Int
  grid : Option Mesh
  select : Option Int
  scalars : List String

/-- A data-extraction call made on the generic backend, recorded as an event:
`vecFull f` is `_convert_field_vec_full(f)`, `scl f` is `_convert_field_scl(f)`,
`vecComp f c` is `_convert_field_vec_comp(f, c)`. -/
inductive Extract : Type where
  | vecFull (fld : String)
  | scl (fld : String)
  | vecComp (fld : String) (comp : String)
deriving DecidableEq

/-- A named VTK point-data artifact (`vtk.Vectors` or `vtk.Scalars`). -/
inductive Artifact : Type where
  | vectors (name : String)
  | scalars (name : String)
deriving DecidableEq

/-- Digits of a natural number, most significant first; `fuel` bounds the
recursion depth and any `fuel ≥ n` suffices.  Together with `pyStrNat` this
mirrors Python's `str` on a non-negative integer. -/
def natCharsAux : Nat → Nat → List Char
  | 0, _ => []
  | fuel + 1, n =>
    if n = 0 then [] else natCharsAux fuel (n / 10) ++ [Nat.digitChar (n % 10)]

/-- Python `str(n)` for a natural number `n`. -/
def pyStrNat (n : Nat) : List Char :=
  if n = 0 then ['0'] else natCharsAux n n

/-- Python `str(n)` for an `int` `n` (a leading minus sign when negative). -/
def pyStrInt (n : Int) : List Char :=
  if n < 0 then '-' :: pyStrNat n.natAbs else pyStrNat n.toNat

/-- The loop `while len(istr) < 7: istr = '0' + istr`, fuel-bounded; seven
iterations always suffice because each iteration lengthens the string by one. -/
def padLoop : Nat → List Char → List Char
  | 0, l => l
  | fuel + 1, l => if l.length < 7 then padLoop fuel ('0' :: l) else l

/-- Zero-pad a string to at least seven characters (lines 91-92 / 180-181). -/
def pad7 (l : List Char) : List Char := padLoop 7 l

/-- The file-name suffix `istr` built identically by `write_fields_vtk`
(lines 90-92) and `write_species_vtk` (lines 179-181). -/
def istrOf (iteration : Int) : String := String.mk (pad7 (pyStrInt iteration))

/-- Value of a string of decimal digits, as computed by Python `int`. -/
def strToNat (l : List Char) : Nat :=
  l.foldl (fun a c => 10 * a + (c.toNat - 48)) 0

/-- Python `int(s)` for a string of decimal digits. -/
def pyInt (s : String) : Nat := strToNat s.data

/-- Modelled from the spec: `_convert_field_vec_full` is defined in
`opmd2VTK/generic.py`, which is not among the sources.  Per the spec it extracts
the three components of a vector field as one named vector array, computing the
mesh once per call and caching it on the instance (`self.grid`). -/
def _convert_field_vec_full (self : Converter) (fld : String) : Converter × String :=
  ({ self with grid := some (self.grid.getD Mesh.mk) }, fld)

/-- Modelled from the spec: `_convert_field_scl` is defined in
`opmd2VTK/generic.py`, which is not among the sources.  Per the spec it extracts
a scalar field as one named scalar array, computing the mesh once per call and
caching it on the instance (`self.grid`). -/
def _convert_field_scl (self : Converter) (fld : String) : Converter × String :=
  ({ self with grid := some (self.grid.getD Mesh.mk) }, fld)

/-- Modelled from the spec: `_convert_field_vec_comp` is defined in
`opmd2VTK/generic.py`, which is not among the sources.  Per the spec it extracts
one named component of a field, computing the mesh once per call and caching it
on the instance (`self.grid`). -/
def _convert_field_vec_comp (self : Converter) (fld : String) (comp : String) :
    Converter × String :=
  ({ self with grid := some (self.grid.getD Mesh.mk) }, fld ++ comp)

/-- Modelled from the spec: `_convert_species` is defined in
`opmd2VTK/generic.py`, which is not among the sources.  Per the spec it retrieves
the particle positions of one species and the requested per-particle scalar
quantities (applying the selection filter if given): one opaque scalar array per
entry of `self.scalars`.  The arrays themselves are opaque (`Unit`). -/
def _convert_species (self : Converter) (specie : String) :
    Converter × Unit × List Unit :=
  (self, (), List.replicate self.scalars.length ())

/-- Loop state while `write_fields_vtk` iterates over the field list: the
converter instance, the files written so far (in order), the extraction calls
made so far, the `vtk_container` list of the common-mesh branch, and the Python
local variable `comp` (`none` while the name is still unbound). -/
structure St : Type where
  conv : Converter
  files : List String
  extracts : List Extract
  container : List Artifact
  comp : Option String

/-- Run a fallible body over a list, stopping at the first raised exception and
returning the state reached so far together with the exception, if any.  Files
already recorded in the state stay recorded: there is no rollback. -/
def foldE {σ α : Type} (f : σ → α → Except PyErr σ) : List α → σ → σ × Option PyErr
  | [], s => (s, none)
  | x :: xs, s =>
    match f s x with
    | .error e => (s, some e)
    | .ok s' => foldE f xs s'

/-- Loop body of the `CommonMesh=True` branch (lines 98-107): look up the field
type, convert vector fields via `_convert_field_vec_full` and scalar fields via
`_convert_field_scl`, appending the named artifact to `vtk_container`; any other
type falls through silently. -/
def commonBody (st : St) (fld : String) : Except PyErr St :=
  match st.conv.ts.fields_metadata fld with
  | none => .error (.keyError fld)
  | some field_type =>
    if field_type = "vector" then
      let r := _convert_field_vec_full st.conv fld
      .ok { st with
        conv := r.1
        extracts := st.extracts ++ [.vecFull fld]
        container := st.container ++ [.vectors r.2] }
    else if field_type = "scalar" then
      let r := _convert_field_scl st.conv fld
      .ok { st with
        conv := r.1
        extracts := st.extracts ++ [.scl fld]
        container := st.container ++ [.scalars r.2] }
    else .ok st

/-- One iteration of the inner `for comp in comps` loop of the vector branch
(lines 117-124): bind `comp`, build `fld_full` and the file name, extract the
component, and write one file. -/
def vecCompStep (istr : String) (fld : String) (st : St) (comp : String) : St :=
  let fld_full := fld ++ comp
  let file_name := st.conv.path ++ "vtk_fields_" ++ fld_full ++ "_" ++ istr
  let r := _convert_field_vec_comp st.conv fld comp
  { st with
    conv := r.1
    comp := some comp
    extracts := st.extracts ++ [.vecComp fld comp]
    files := st.files ++ [file_name] }

/-- Loop body of the `CommonMesh=False` branch (lines 113-132): vector fields run
the inner component loop over `['x', 'y', 'z']`; scalar fields build their file
name from the bare field name but extract via `_convert_field_vec_comp(fld, comp)`
with whatever value the local `comp` still holds (a `NameError` when `comp` was
never bound); any other type falls through silently. -/
def sepBody (istr : String) (st : St) (fld : String) : Except PyErr St :=
  match st.conv.ts.fields_metadata fld with
  | none => .error (.keyError fld)
  | some field_type =>
    if field_type = "vector" then
      .ok (List.foldl (vecCompStep istr fld) st ["x", "y", "z"])
    else if field_type = "scalar" then
      match st.comp with
      | none => .error (.nameError "comp")
      | some comp =>
        let file_name := st.conv.path ++ "vtk_fields_" ++ fld ++ "_" ++ istr
        let r := _convert_field_vec_comp st.conv fld comp
        .ok { st with
          conv := r.1
          extracts := st.extracts ++ [.vecComp fld comp]
          files := st.files ++ [file_name] }
    else .ok st

/-- The field loop of `write_fields_vtk`, in the branch selected by
`self.CommonMesh` (line 94 / line 112). -/
def fieldsLoop (cm : Bool) (istr : String) (flds : List String) (s : St) :
    St × Option PyErr :=
  if cm then foldE commonBody flds s else foldE (sepBody istr) flds s

/-- Attribute registration at the head of `write_fields_vtk` (lines 81-88):
store the per-call parameters on the instance and reset `self.grid` to `None`
so the mesh is recomputed. -/
def registerFields (self : Converter) (iteration : Int) (zmin_fixed : Option Int)
    (Nth : Int) (CommonMesh : Bool) : Converter :=
  { self with
    iteration := iteration
    zmin_fixed := zmin_fixed
    CommonMesh := CommonMesh
    Nth := Nth
    grid := none }

/-- Initial loop state of a `write_fields_vtk` call: no files written, no
extractions made, empty `vtk_container`, and the local `comp` unbound. -/
def initSt (c : Converter) : St := ⟨c, [], [], [], none⟩

/-- Result of a `write_fields_vtk` call: the instance state on return (or at the
point the exception escaped), the files written (surviving on disk even when an
exception aborted the call), the extraction calls made, and the exception if one
was raised. -/
structure FieldsResult : Type where
  conv : Converter
  files : List String
  extracts : List Extract
  err : Option PyErr

/-- `Opmd2VTK.write_fields_vtk` (lines 42-132).  Resolves the default field list,
registers the per-call attributes, resets the cached mesh, builds the 7-digit
iteration suffix, and runs the branch selected by `CommonMesh`: one file
`vtk_fields_<istr>` over a common mesh after the loop, or one file per component
written inside the loop.  The `format` argument selects the serialization of
`tofile` and does not influence anything modelled here. -/
def write_fields_vtk (self : Converter) (flds : Option (List String))
    (iteration : Int) (format : String) (zmin_fixed : Option Int) (Nth : Int)
    (CommonMesh : Bool) : FieldsResult :=
  let flds := flds.getD self.ts.avail_fields
  let c := registerFields self iteration zmin_fixed Nth CommonMesh
  let istr := istrOf iteration
  match fieldsLoop CommonMesh istr flds (initSt c) with
  | (st, some e) => ⟨st.conv, st.files, st.extracts, some e⟩
  | (st, none) =>
    if CommonMesh then
      ⟨st.conv, st.files ++ [st.conv.path ++ "vtk_fields_" ++ istr], st.extracts, none⟩
    else
      ⟨st.conv, st.files, st.extracts, none⟩

/-- The names the `i, scalar in enumerate(scalars_to_add)` loop of
`write_species_vtk` gives the scalar containers (lines 193-196): the `i`-th
array is named `self.scalars[i]`, raising `IndexError` when the index is out of
range. -/
def nameScalars (scalars : List String) : List Unit → Nat → Except PyErr (List String)
  | [], _ => .ok []
  | _ :: rest, i =>
    match scalars[i]? with
    | none => .error .indexError
    | some nm =>
      match nameScalars scalars rest (i + 1) with
      | .error e => .error e
      | .ok l => .ok (nm :: l)

/-- Loop state while `write_species_vtk` iterates over the species list: the
converter, the files written so far, and for each species written the list of
scalar-array names attached to its point cloud. -/
structure SpSt : Type where
  conv : Converter
  files : List String
  arrays : List (List String)

/-- Loop body of `write_species_vtk` (lines 185-199): convert the species, build
the point cloud, name the scalar containers from `self.scalars`, and write one
file `vtk_specie_<specie>_<istr>`. -/
def speciesBody (istr : String) (st : SpSt) (specie : String) : Except PyErr SpSt :=
  let r := _convert_species st.conv specie
  match nameScalars r.1.scalars r.2.2 0 with
  | .error e => .error e
  | .ok names =>
    .ok { st with
      conv := r.1
      files := st.files ++ [r.1.path ++ "vtk_specie_" ++ specie ++ "_" ++ istr]
      arrays := st.arrays ++ [names] }

/-- Result of a `write_species_vtk` call, analogous to `FieldsResult`; `arrays`
records, per species written, the names of the scalar arrays attached. -/
structure SpeciesResult : Type where
  conv : Converter
  files : List String
  arrays : List (List String)
  err : Option PyErr

/-- `Opmd2VTK.write_species_vtk` (lines 135-199).  Resolves the default species
list, registers the per-call attributes (lines 173-177), builds the 7-digit
iteration suffix, and writes one file per species. -/
def write_species_vtk (self : Converter) (species : Option (List String))
    (iteration : Int) (format : String) (scalars : List String)
    (select : Option Int) (zmin_fixed : Option Int) : SpeciesResult :=
  let species := species.getD self.ts.avail_species
  let c := { self with
    iteration := iteration
    zmin_fixed := zmin_fixed
    select := select
    scalars := scalars }
  let istr := istrOf iteration
  match foldE (speciesBody istr) species ⟨c, [], []⟩ with
  | (st, o) => ⟨st.conv, st.files, st.arrays, o⟩

/-- Names bound at module level of `pyvtk.py`: its imports and its class.  The
grid-dimension expression of `_get_mesh_circ` references `Nr` and `Nz`, which are
not among them. -/
def moduleNames : List String := ["vtk", "np", "os", "opmd2VTKGeneric", "Opmd2VTK"]

/-- Python name resolution at module scope of `pyvtk.py`. -/
def lookupName (n : String) : Option Unit :=
  if moduleNames.contains n then some () else none

/-- `Opmd2VTK._get_mesh_circ` (lines 205-207).  The right-hand side
`vtk.StructuredGrid(dimensions=(self.Nth+1, Nr, Nz), points=points)` is evaluated
before the assignment to `self.grid`; evaluating the tuple resolves `Nr` first,
which is unbound, so a `NameError` is raised and `self.grid` is never assigned
(the `dimensions` parameter is never used). -/
def _get_mesh_circ {α β : Type} (self : Converter) (dimensions : α) (points : β) :
    Except PyErr Converter :=
  match lookupName "Nr" with
  | none => .error (.nameError "Nr")
  | some _ =>
    match lookupName "Nz" with
    | none => .error (.nameError "Nz")
    | some _ => .ok { self with grid := some Mesh.mk }

/-- Files the `CommonMesh=False` branch writes for one field, per its declared
metadata type; stated from the spec's words for comparison with the run of
`write_fields_vtk` (spec §4.1 and §8: three component files per vector field, one
file per scalar field, nothing otherwise). -/
def sepFilesFor (md : String → Option String) (path istr fld : String) : List String :=
  match md fld with
  | none => []
  | some field_type =>
    if field_type = "vector" then
      ["x", "y", "z"].map (fun comp => path ++ "vtk_fields_" ++ (fld ++ comp) ++ "_" ++ istr)
    else if field_type = "scalar" then
      [path ++ "vtk_fields_" ++ fld ++ "_" ++ istr]
    else []

/-- Agreement of two converter states on every attribute except the cached mesh:
the field loops only ever touch `self.grid`. -/
def agreesExceptGrid (a b : Converter) : Prop :=
  a.ts = b.ts ∧ a.path = b.path ∧ a.iteration = b.iteration ∧
  a.zmin_fixed = b.zmin_fixed ∧ a.CommonMesh = b.CommonMesh ∧ a.Nth = b.Nth ∧
  a.select = b.select ∧ a.scalars = b.scalars

/-- Test reader fixture: one vector field `E`, one scalar field `rho`, one field
`T` of the unrecognized type `tensor`, one species. -/
def tsTest : TimeSeries where
  avail_fields := ["E", "rho"]
  avail_species := ["electrons"]
  fields_metadata := fun f =>
    if f = "E" then some "vector"
    else if f = "rho" then some "scalar"
    else if f = "T" then some "tensor"
    else none

/-- Test converter fixture over `tsTest`. -/
def convTest : Converter where
  ts := tsTest
  path := "./"
  iteration := 0
  zmin_fixed := none
  CommonMesh := true
  Nth := 24
  grid := none
  select := none
  scalars := []

/-! ### Lemmas about the iteration suffix -/

theorem digitChar_toNat {d : Nat} (h : d < 10) : (Nat.digitChar d).toNat = 48 + d := by
  interval_cases d <;> rfl

theorem strToNat_append_digit (l : List Char) (c : Char) :
    strToNat (l ++ [c]) = 10 * strToNat l + (c.toNat - 48) := by
  simp [strToNat, List.foldl_append]

theorem natCharsAux_strToNat : ∀ fuel n, n ≤ fuel → strToNat (natCharsAux fuel n) = n := by
  intro fuel
  induction fuel with
  | zero =>
    intro n hn
    interval_cases n
    rfl
  | succ fuel ih =>
    intro n hn
    by_cases h0 : n = 0
    · subst h0; rfl
    · have hpos : 0 < n := Nat.pos_of_ne_zero h0
      have hdiv : n / 10 ≤ fuel := by
        have : n / 10 < n := Nat.div_lt_self hpos (by norm_num)
        omega
      rw [natCharsAux, if_neg h0, strToNat_append_digit, ih _ hdiv,
        digitChar_toNat (Nat.mod_lt _ (by norm_num))]
      omega

theorem natCharsAux_length :
    ∀ fuel n k, n ≤ fuel → n < 10 ^ k → (natCharsAux fuel n).length ≤ k := by
  intro fuel
  induction fuel with
  | zero =>
    intro n k hn _
    interval_cases n
    simp [natCharsAux]
  | succ fuel ih =>
    intro n k hn hk
    by_cases h0 : n = 0
    · subst h0; simp [natCharsAux]
    · have hpos : 0 < n := Nat.pos_of_ne_zero h0
      cases k with
      | zero => simp at hk; omega
      | succ k =>
        have hdiv : n / 10 ≤ fuel := by
          have : n / 10 < n := Nat.div_lt_self hpos (by norm_num)
          omega
        have hdivk : n / 10 < 10 ^ k := by
          rw [Nat.div_lt_iff_lt_mul (by norm_num : (0:Nat) < 10)]
          calc n < 10 ^ (k + 1) := hk
            _ = 10 ^ k * 10 := by rw [pow_succ]
        have := ih (n / 10) k hdiv hdivk
        rw [natCharsAux, if_neg h0]
        simp only [List.length_append, List.length_singleton]
        omega

theorem pyStrNat_length {n k : Nat} (hk : 0 < k) (h : n < 10 ^ k) :
    (pyStrNat n).length ≤ k := by
  by_cases h0 : n = 0
  · subst h0; simp [pyStrNat]; omega
  · rw [pyStrNat, if_neg h0]
    exact natCharsAux_length n n k le_rfl h

theorem pyStrNat_strToNat (n : Nat) : strToNat (pyStrNat n) = n := by
  by_cases h0 : n = 0
  · subst h0; rfl
  · rw [pyStrNat, if_neg h0]
    exact natCharsAux_strToNat n n le_rfl

theorem padLoop_spec :
    ∀ fuel l, 7 - l.length ≤ fuel →
      padLoop fuel l = List.replicate (7 - l.length) '0' ++ l := by
  intro fuel
  induction fuel with
  | zero =>
    intro l hl
    have : 7 - l.length = 0 := by omega
    rw [this]
    rfl
  | succ fuel ih =>
    intro l hl
    by_cases h : l.length < 7
    · rw [padLoop, if_pos h, ih ('0' :: l) (by simp; omega)]
      have hlen : 7 - l.length = (7 - ('0' :: l).length) + 1 := by simp; omega
      rw [hlen, List.replicate_succ', List.append_assoc]
      simp
    · rw [padLoop, if_neg h]
      have : 7 - l.length = 0 := by omega
      rw [this]
      rfl

theorem pad7_eq (l : List Char) :
    pad7 l = List.replicate (7 - l.length) '0' ++ l :=
  padLoop_spec 7 l (by omega)

theorem pad7_length {l : List Char} (h : l.length ≤ 7) : (pad7 l).length = 7 := by
  rw [pad7_eq]
  simp
  omega

theorem strToNat_replicate_zero (k : Nat) (l : List Char) :
    strToNat (List.replicate k '0' ++ l) = strToNat l := by
  induction k with
  | zero => rfl
  | succ k ih =>
    rw [List.replicate_succ, List.cons_append]
    show strToNat (List.replicate k '0' ++ l) = strToNat l
    exact ih

/-! ### Lemmas about the loop combinator and state preservation -/

theorem foldE_append {σ α : Type} (f : σ → α → Except PyErr σ) (l1 l2 : List α) (s : σ) :
    foldE f (l1 ++ l2) s =
      (match foldE f l1 s with
       | (s', none) => foldE f l2 s'
       | (s', some e) => (s', some e)) := by
  induction l1 generalizing s with
  | nil => rfl
  | cons x xs ih =>
    show (match f s x with
          | .error e => (s, some e)
          | .ok s' => foldE f (xs ++ l2) s') = _
    cases hfx : f s x with
    | error e => simp [foldE, hfx]
    | ok s1 => simp [foldE, hfx, ih s1]

theorem agreesExceptGrid_refl (a : Converter) : agreesExceptGrid a a := by
  simp [agreesExceptGrid]

theorem agreesExceptGrid_trans {a b c : Converter}
    (h1 : agreesExceptGrid a b) (h2 : agreesExceptGrid b c) : agreesExceptGrid a c := by
  obtain ⟨t1, p1, i1, z1, c1, n1, s1, l1⟩ := h1
  obtain ⟨t2, p2, i2, z2, c2, n2, s2, l2⟩ := h2
  exact ⟨t1.trans t2, p1.trans p2, i1.trans i2, z1.trans z2, c1.trans c2,
    n1.trans n2, s1.trans s2, l1.trans l2⟩

theorem commonBody_pres {st st' : St} {fld : String} (h : commonBody st fld = .ok st') :
    agreesExceptGrid st'.conv st.conv := by
  unfold commonBody at h
  cases hmd : st.conv.ts.fields_metadata fld with
  | none => rw [hmd] at h; exact Except.noConfusion h
  | some ft =>
    simp only [hmd] at h
    by_cases hv : ft = "vector"
    · rw [if_pos hv] at h
      injection h with h
      subst h
      simp [agreesExceptGrid, _convert_field_vec_full]
    · rw [if_neg hv] at h
      by_cases hs : ft = "scalar"
      · rw [if_pos hs] at h
        injection h with h
        subst h
        simp [agreesExceptGrid, _convert_field_scl]
      · rw [if_neg hs] at h
        injection h with h
        subst h
        exact agreesExceptGrid_refl _

theorem sepBody_pres {istr : String} {st st' : St} {fld : String}
    (h : sepBody istr st fld = .ok st') : agreesExceptGrid st'.conv st.conv := by
  unfold sepBody at h
  cases hmd : st.conv.ts.fields_metadata fld with
  | none => rw [hmd] at h; exact Except.noConfusion h
  | some ft =>
    simp only [hmd] at h
    by_cases hv : ft = "vector"
    · rw [if_pos hv] at h
      injection h with h
      subst h
      simp [vecCompStep, _convert_field_vec_comp, agreesExceptGrid]
    · rw [if_neg hv] at h
      by_cases hs : ft = "scalar"
      · rw [if_pos hs] at h
        cases hc : st.comp with
        | none => rw [hc] at h; exact Except.noConfusion h
        | some c =>
          rw [hc] at h
          injection h with h
          subst h
          simp [agreesExceptGrid, _convert_field_vec_comp]
      · rw [if_neg hs] at h
        injection h with h
        subst h
        exact agreesExceptGrid_refl _

theorem foldE_pres {σ α : Type} (g : σ → Converter) (f : σ → α → Except PyErr σ)
    (hf : ∀ s x s', f s x = .ok s' → agreesExceptGrid (g s') (g s)) :
    ∀ (l : List α) (s : σ), agreesExceptGrid (g (foldE f l s).1) (g s) := by
  intro l
  induction l with
  | nil => intro s; exact agreesExceptGrid_refl _
  | cons x xs ih =>
    intro s
    show agreesExceptGrid
      (g (match f s x with
          | .error e => (s, some e)
          | .ok s' => foldE f xs s').1) (g s)
    cases hfx : f s x with
    | error e => exact agreesExceptGrid_refl _
    | ok s1 => exact agreesExceptGrid_trans (ih s1) (hf s x s1 hfx)

theorem fieldsLoop_pres (cm : Bool) (istr : String) (l : List String) (s : St) :
    agreesExceptGrid ((fieldsLoop cm istr l s).1).conv s.conv := by
  cases cm with
  | true => exact foldE_pres St.conv commonBody (fun s x s' h => commonBody_pres h) l s
  | false => exact foldE_pres St.conv (sepBody istr) (fun s x s' h => sepBody_pres h) l s

/-! ### Claim theorems (first batch) -/

/-- C1: in `write_fields_vtk` with `CommonMesh=False`, when a scalar-typed field
is processed and the loop variable `comp` still holds a value `c` left over from
the last vector-field iteration, the scalar branch extracts with
`_convert_field_vec_comp(fld, c)` — the leftover component variable — rather
than performing a scalar extraction of the current field. -/
theorem spec_c1 (istr : String) (st : St) (fld c : String)
    (hmd : st.conv.ts.fields_metadata fld = some "scalar") (hc : st.comp = some c) :
    sepBody istr st fld = .ok { st with
      conv := (_convert_field_vec_comp st.conv fld c).1
      extracts := st.extracts ++ [Extract.vecComp fld c]
      files := st.files ++ [st.conv.path ++ "vtk_fields_" ++ fld ++ "_" ++ istr] } := by
  unfold sepBody
  rw [hmd, hc]
  simp

/-- Witness for C1 at a concrete state: field `rho` is scalar-typed in `tsTest`
and `comp` holds `"z"`. -/
theorem spec_c1_witness :
    sepBody "0000000" ⟨convTest, [], [], [], some "z"⟩ "rho" =
      .ok { (⟨convTest, [], [], [], some "z"⟩ : St) with
        conv := (_convert_field_vec_comp convTest "rho" "z").1
        extracts := [] ++ [Extract.vecComp "rho" "z"]
        files := [] ++ [convTest.path ++ "vtk_fields_" ++ "rho" ++ "_" ++ "0000000"] } :=
  spec_c1 "0000000" ⟨convTest, [], [], [], some "z"⟩ "rho" "z" rfl rfl

/-- C5: every invocation of `write_fields_vtk` resets the cached mesh
(`self.grid = None`, line 88) before any field is processed, so the result of a
call never depends on the mesh cached by a previous call: the run from an
instance with any cached grid `g` equals the run from the same instance with no
cached grid. -/
theorem spec_c5 (self : Converter) (g : Option Mesh) (flds : Option (List String))
    (iteration : Int) (format : String) (zmin_fixed : Option Int) (Nth : Int)
    (CommonMesh : Bool) :
    write_fields_vtk { self with grid := g } flds iteration format zmin_fixed Nth CommonMesh =
      write_fields_vtk self flds iteration format zmin_fixed Nth CommonMesh := rfl

/-- C8: every call of `_get_mesh_circ` raises `NameError` for `Nr`, the first of
the two unbound names in its grid-dimensions expression, the `dimensions`
parameter is never consulted, and no updated converter (in particular no
assignment to `self.grid`) is ever produced. -/
theorem spec_c8 {α β : Type} (self : Converter) (dimensions : α) (points : β) :
    _get_mesh_circ self dimensions points = .error (.nameError "Nr") := rfl

/-- C3: for every non-negative iteration number under 10,000,000 the suffix
`istr` built by `write_fields_vtk` and `write_species_vtk` (both call `istrOf`)
has exactly 7 characters and round-trips numerically through Python `int`. -/
theorem spec_c3 (iteration : Int) (h0 : 0 ≤ iteration) (h7 : iteration < 10000000) :
    (istrOf iteration).length = 7 ∧ (pyInt (istrOf iteration) : Int) = iteration := by
  have hneg : ¬ iteration < 0 := by omega
  have hm : iteration.toNat < 10 ^ 7 := by
    have h : (10 : Nat) ^ 7 = 10000000 := by norm_num
    omega
  constructor
  · show (pad7 (pyStrInt iteration)).length = 7
    rw [pyStrInt, if_neg hneg]
    exact pad7_length (pyStrNat_length (by norm_num) hm)
  · show ((strToNat (pad7 (pyStrInt iteration)) : Nat) : Int) = iteration
    rw [pyStrInt, if_neg hneg, pad7_eq, strToNat_replicate_zero, pyStrNat_strToNat,
      Int.toNat_of_nonneg h0]

/-- Witness for C3 at iteration 42. -/
theorem spec_c3_witness :
    ((0 : Int) ≤ 42 ∧ (42 : Int) < 10000000) ∧
      ((istrOf 42).length = 7 ∧ (pyInt (istrOf 42) : Int) = 42) :=
  ⟨⟨by decide, by decide⟩, spec_c3 42 (by decide) (by decide)⟩

/-! ### Lemmas for the species loop -/

theorem nameScalars_replicate :
    ∀ (s : List String) (k i : Nat), i + k = s.length →
      nameScalars s (List.replicate k ()) i = .ok (s.drop i) := by
  intro s k
  induction k with
  | zero =>
    intro i hi
    have hlen : i = s.length := by omega
    subst hlen
    simp [nameScalars, List.drop_length]
  | succ k ih =>
    intro i hi
    have hil : i < s.length := by omega
    rw [List.replicate_succ]
    show (match s[i]? with
          | none => .error .indexError
          | some nm =>
            match nameScalars s (List.replicate k ()) (i + 1) with
            | .error e => .error e
            | .ok l => .ok (nm :: l)) = Except.ok (s.drop i)
    rw [List.getElem?_eq_getElem hil, ih (i + 1) (by omega)]
    show Except.ok (s[i] :: s.drop (i + 1)) = Except.ok (s.drop i)
    rw [List.cons_getElem_drop_succ]

theorem speciesBody_step (istr : String) (st : SpSt) (sp : String) :
    speciesBody istr st sp = .ok { st with
      files := st.files ++ [st.conv.path ++ "vtk_specie_" ++ sp ++ "_" ++ istr]
      arrays := st.arrays ++ [st.conv.scalars] } := by
  have h := nameScalars_replicate st.conv.scalars st.conv.scalars.length 0 (by omega)
  rw [List.drop_zero] at h
  simp only [speciesBody, _convert_species]
  rw [h]

theorem speciesLoop_run (istr : String) :
    ∀ (l : List String) (st : SpSt),
      foldE (speciesBody istr) l st =
        ({ st with
          files := st.files ++ l.map (fun sp => st.conv.path ++ "vtk_specie_" ++ sp ++ "_" ++ istr)
          arrays := st.arrays ++ l.map (fun _ => st.conv.scalars) }, none) := by
  intro l
  induction l with
  | nil =>
    intro st
    simp [foldE]
  | cons sp rest ih =>
    intro st
    simp only [foldE]
    rw [speciesBody_step]
    simp [ih]

/-- C7: `write_species_vtk` raises no error, writes exactly one file per species
named `vtk_specie_<species>_<istr>` (prefixed by the output path), and attaches
to each species' point cloud one scalar array per requested quantity, the `i`-th
named after the `i`-th entry of the `scalars` argument — so each species' name
list is exactly the `scalars` argument. -/
theorem spec_c7 (self : Converter) (species : List String) (iteration : Int)
    (format : String) (scalars : List String) (select : Option Int)
    (zmin_fixed : Option Int) :
    (write_species_vtk self (some species) iteration format scalars select zmin_fixed).err
        = none ∧
    (write_species_vtk self (some species) iteration format scalars select zmin_fixed).files
        = species.map (fun sp => self.path ++ "vtk_specie_" ++ sp ++ "_" ++ istrOf iteration) ∧
    (write_species_vtk self (some species) iteration format scalars select zmin_fixed).arrays
        = species.map (fun _ => scalars) := by
  simp only [write_species_vtk, Option.getD_some]
  rw [speciesLoop_run]
  simp

theorem write_fields_conv (self : Converter) (flds : Option (List String)) (it : Int)
    (fmt : String) (z : Option Int) (nth : Int) (cm : Bool) :
    agreesExceptGrid (write_fields_vtk self flds it fmt z nth cm).conv
      (registerFields self it z nth cm) := by
  simp only [write_fields_vtk]
  have hp := fieldsLoop_pres cm (istrOf it) (flds.getD self.ts.avail_fields)
      (initSt (registerFields self it z nth cm))
  rcases hfl : fieldsLoop cm (istrOf it) (flds.getD self.ts.avail_fields)
      (initSt (registerFields self it z nth cm)) with ⟨st, o⟩
  rw [hfl] at hp
  cases o with
  | some e => exact hp
  | none => cases cm <;> exact hp

theorem write_species_conv (self : Converter) (species : Option (List String))
    (it : Int) (fmt : String) (scalars : List String) (sel : Option Int)
    (z : Option Int) :
    (write_species_vtk self species it fmt scalars sel z).conv =
      { self with iteration := it, zmin_fixed := z, select := sel, scalars := scalars } := by
  simp only [write_species_vtk]
  rw [speciesLoop_run]

/-- C10: `write_fields_vtk` overwrites the instance attributes `iteration`,
`zmin_fixed`, `CommonMesh` and `Nth` with its per-call arguments (and `grid`,
see the reset of line 88), and `write_species_vtk` overwrites `iteration`,
`zmin_fixed`, `select` and `scalars`; the converter state returned by a call
carries these values, so a subsequent call on that state observes them until it
overwrites them itself. -/
theorem spec_c10 (self : Converter)
    (flds : Option (List String)) (it1 : Int) (fmt1 : String) (z1 : Option Int)
    (nth : Int) (cm : Bool)
    (species : Option (List String)) (it2 : Int) (fmt2 : String)
    (scalars : List String) (sel : Option Int) (z2 : Option Int) :
    ((write_fields_vtk self flds it1 fmt1 z1 nth cm).conv.iteration = it1 ∧
     (write_fields_vtk self flds it1 fmt1 z1 nth cm).conv.zmin_fixed = z1 ∧
     (write_fields_vtk self flds it1 fmt1 z1 nth cm).conv.CommonMesh = cm ∧
     (write_fields_vtk self flds it1 fmt1 z1 nth cm).conv.Nth = nth) ∧
    ((write_species_vtk self species it2 fmt2 scalars sel z2).conv.iteration = it2 ∧
     (write_species_vtk self species it2 fmt2 scalars sel z2).conv.zmin_fixed = z2 ∧
     (write_species_vtk self species it2 fmt2 scalars sel z2).conv.select = sel ∧
     (write_species_vtk self species it2 fmt2 scalars sel z2).conv.scalars = scalars) ∧
    (∀ g : Option Mesh,
      (write_fields_vtk { self with grid := g } flds it1 fmt1 z1 nth cm).conv.grid =
        (write_fields_vtk self flds it1 fmt1 z1 nth cm).conv.grid) := by
  obtain ⟨-, -, hiter, hz, hcm, hnth, -, -⟩ :=
    write_fields_conv self flds it1 fmt1 z1 nth cm
  refine ⟨⟨hiter, hz, hcm, hnth⟩, ⟨?_, ?_, ?_, ?_⟩, fun g => rfl⟩ <;>
    rw [write_species_conv]

/-! ### Characterizations of the loop bodies -/

theorem commonBody_skip {st : St} {fld t : String}
    (hmd : st.conv.ts.fields_metadata fld = some t)
    (hv : t ≠ "vector") (hs : t ≠ "scalar") :
    commonBody st fld = .ok st := by
  unfold commonBody
  simp only [hmd]
  rw [if_neg hv, if_neg hs]

theorem sepBody_skip {istr : String} {st : St} {fld t : String}
    (hmd : st.conv.ts.fields_metadata fld = some t)
    (hv : t ≠ "vector") (hs : t ≠ "scalar") :
    sepBody istr st fld = .ok st := by
  unfold sepBody
  simp only [hmd]
  rw [if_neg hv, if_neg hs]

theorem sepBody_vector (istr : String) {st : St} {fld : String}
    (hmd : st.conv.ts.fields_metadata fld = some "vector") :
    sepBody istr st fld = .ok { st with
      conv := { st.conv with grid := some (st.conv.grid.getD Mesh.mk) }
      comp := some "z"
      extracts := st.extracts ++
        [.vecComp fld "x", .vecComp fld "y", .vecComp fld "z"]
      files := st.files ++
        [st.conv.path ++ "vtk_fields_" ++ (fld ++ "x") ++ "_" ++ istr,
         st.conv.path ++ "vtk_fields_" ++ (fld ++ "y") ++ "_" ++ istr,
         st.conv.path ++ "vtk_fields_" ++ (fld ++ "z") ++ "_" ++ istr] } := by
  unfold sepBody
  simp [hmd, vecCompStep, _convert_field_vec_comp]

theorem sepBody_scalar (istr : String) {st : St} {fld c : String}
    (hmd : st.conv.ts.fields_metadata fld = some "scalar") (hc : st.comp = some c) :
    sepBody istr st fld = .ok { st with
      conv := (_convert_field_vec_comp st.conv fld c).1
      extracts := st.extracts ++ [Extract.vecComp fld c]
      files := st.files ++ [st.conv.path ++ "vtk_fields_" ++ fld ++ "_" ++ istr] } := by
  unfold sepBody
  rw [hmd, hc]
  simp

theorem foldE_skip {σ : Type} (f : σ → String → Except PyErr σ) (g : σ → Converter)
    (ts0 : TimeSeries)
    (hpres : ∀ s x s', f s x = .ok s' → agreesExceptGrid (g s') (g s))
    (fld : String)
    (hskip : ∀ s, (g s).ts = ts0 → f s fld = .ok s) :
    ∀ (l1 l2 : List String) (s : σ), (g s).ts = ts0 →
      foldE f (l1 ++ fld :: l2) s = foldE f (l1 ++ l2) s := by
  intro l1
  induction l1 with
  | nil =>
    intro l2 s hts
    show (match f s fld with
          | Except.error e => (s, some e)
          | Except.ok s' => foldE f l2 s') = foldE f l2 s
    rw [hskip s hts]
  | cons x xs ih =>
    intro l2 s hts
    show (match f s x with
          | Except.error e => (s, some e)
          | Except.ok s' => foldE f (xs ++ fld :: l2) s') =
      (match f s x with
       | Except.error e => (s, some e)
       | Except.ok s' => foldE f (xs ++ l2) s')
    cases hfx : f s x with
    | error e => rfl
    | ok s1 =>
      have hts1 : (g s1).ts = ts0 := by
        obtain ⟨h, -⟩ := hpres s x s1 hfx
        rw [h, hts]
      exact ih l2 s1 hts1

/-- C4: a field whose declared metadata type is neither `scalar` nor `vector`
is silently skipped by `write_fields_vtk` in both `CommonMesh` modes: the call
on a field list containing it behaves exactly like the call on the list without
it — no artifact, no file, no error, and processing of the remaining fields
continues. -/
theorem spec_c4 (self : Converter) (fs1 fs2 : List String) (f t : String)
    (hmd : self.ts.fields_metadata f = some t) (hv : t ≠ "vector") (hs : t ≠ "scalar")
    (it : Int) (fmt : String) (z : Option Int) (nth : Int) (cm : Bool) :
    write_fields_vtk self (some (fs1 ++ f :: fs2)) it fmt z nth cm =
      write_fields_vtk self (some (fs1 ++ fs2)) it fmt z nth cm := by
  simp only [write_fields_vtk, Option.getD_some]
  have hloop : fieldsLoop cm (istrOf it) (fs1 ++ f :: fs2)
        (initSt (registerFields self it z nth cm)) =
      fieldsLoop cm (istrOf it) (fs1 ++ fs2)
        (initSt (registerFields self it z nth cm)) := by
    unfold fieldsLoop
    cases cm with
    | true =>
      exact foldE_skip commonBody St.conv self.ts
        (fun s x s' h => commonBody_pres h) f
        (fun s hts => commonBody_skip (by rw [hts]; exact hmd) hv hs)
        fs1 fs2 _ rfl
    | false =>
      exact foldE_skip (sepBody (istrOf it)) St.conv self.ts
        (fun s x s' h => sepBody_pres h) f
        (fun s hts => sepBody_skip (by rw [hts]; exact hmd) hv hs)
        fs1 fs2 _ rfl
  rw [hloop]

/-- Witness for C4: the field `T` of type `tensor` is skipped. -/
theorem spec_c4_witness :
    write_fields_vtk convTest (some ([] ++ "T" :: ["rho"])) 0 "binary" none 24 true =
      write_fields_vtk convTest (some ([] ++ ["rho"])) 0 "binary" none 24 true :=
  spec_c4 convTest [] ["rho"] "T" "tensor" rfl (by decide) (by decide) 0 "binary" none 24 true

theorem commonBody_files {st st' : St} {fld : String} (h : commonBody st fld = .ok st') :
    st'.files = st.files := by
  unfold commonBody at h
  cases hmd : st.conv.ts.fields_metadata fld with
  | none => rw [hmd] at h; exact Except.noConfusion h
  | some ft =>
    simp only [hmd] at h
    by_cases hv : ft = "vector"
    · rw [if_pos hv] at h; injection h with h; subst h; rfl
    · rw [if_neg hv] at h
      by_cases hs : ft = "scalar"
      · rw [if_pos hs] at h; injection h with h; subst h; rfl
      · rw [if_neg hs] at h; injection h with h; subst h; rfl

theorem commonLoop_files : ∀ (l : List String) (st : St),
    ((foldE commonBody l st).1).files = st.files := by
  intro l
  induction l with
  | nil => intro st; rfl
  | cons x xs ih =>
    intro st
    simp only [foldE]
    cases hb : commonBody st x with
    | error e => rfl
    | ok s1 => rw [ih s1, commonBody_files hb]

theorem sepLoop_files (istr : String) :
    ∀ (l : List String) (st st' : St),
      foldE (sepBody istr) l st = (st', none) →
      st'.files = st.files ++
        l.flatMap (sepFilesFor st.conv.ts.fields_metadata st.conv.path istr) := by
  intro l
  induction l with
  | nil =>
    intro st st' h
    have h1 : st = st' := congrArg Prod.fst h
    subst h1
    simp
  | cons f rest ih =>
    intro st st' h
    simp only [foldE] at h
    have hcons := h
    cases hmd : st.conv.ts.fields_metadata f with
    | none =>
      rw [show sepBody istr st f = .error (.keyError f) from by
        unfold sepBody; rw [hmd]] at hcons
      exact absurd (congrArg Prod.snd hcons) (by simp)
    | some t =>
      by_cases hv : t = "vector"
      · subst hv
        rw [sepBody_vector istr hmd] at hcons
        have h1 := ih _ st' hcons
        rw [h1, List.flatMap_cons]
        simp [sepFilesFor, hmd]
      · by_cases hs : t = "scalar"
        · subst hs
          cases hc : st.comp with
          | none =>
            rw [show sepBody istr st f = .error (.nameError "comp") from by
              unfold sepBody; rw [hmd, hc]; simp] at hcons
            exact absurd (congrArg Prod.snd hcons) (by simp)
          | some c =>
            rw [sepBody_scalar istr hmd hc] at hcons
            have h1 := ih _ st' hcons
            rw [h1, List.flatMap_cons]
            simp [sepFilesFor, hmd, _convert_field_vec_comp]
        · rw [sepBody_skip hmd hv hs] at hcons
          have h1 := ih _ st' hcons
          rw [h1, List.flatMap_cons]
          simp [sepFilesFor, hmd, hv, hs]

/-- C2: when `write_fields_vtk` completes without an exception it writes, in
common-mesh mode, exactly the one file `vtk_fields_<istr>`, and in
per-component mode exactly the files given by `sepFilesFor`: one per
scalar-typed field (`vtk_fields_<fld>_<istr>`) and three per vector-typed field
(`vtk_fields_<fld><comp>_<istr>` for components `x`, `y`, `z`), all prefixed by
the output path, with `<istr>` the 7-digit zero-padded iteration suffix. -/
theorem spec_c2 (self : Converter) (flds : List String) (it : Int) (fmt : String)
    (z : Option Int) (nth : Int) (cm : Bool)
    (hok : (write_fields_vtk self (some flds) it fmt z nth cm).err = none) :
    (write_fields_vtk self (some flds) it fmt z nth cm).files =
      if cm then [self.path ++ "vtk_fields_" ++ istrOf it]
      else flds.flatMap (sepFilesFor self.ts.fields_metadata self.path (istrOf it)) := by
  simp only [write_fields_vtk, Option.getD_some] at hok ⊢
  have hpres := fieldsLoop_pres cm (istrOf it) flds (initSt (registerFields self it z nth cm))
  rcases hfl : fieldsLoop cm (istrOf it) flds (initSt (registerFields self it z nth cm))
    with ⟨st, o⟩
  rw [hfl] at hok hpres
  cases o with
  | some e => simp at hok
  | none =>
    obtain ⟨hts, hpath, -⟩ := hpres
    cases cm with
    | true =>
      have hpath' : st.conv.path = self.path := hpath
      have hfiles : st.files = [] := by
        have hc : foldE commonBody flds (initSt (registerFields self it z nth true)) =
            (st, none) := hfl
        have h2 := commonLoop_files flds (initSt (registerFields self it z nth true))
        rw [hc] at h2
        exact h2
      simp [hfiles, hpath']
    | false =>
      have hsep : foldE (sepBody (istrOf it)) flds
          (initSt (registerFields self it z nth false)) = (st, none) := hfl
      have h2 := sepLoop_files (istrOf it) flds _ st hsep
      simp only [initSt, registerFields] at h2
      simpa using h2

/-- Witness for C2 in per-component mode: fields `E` (vector) then `rho`
(scalar) at iteration 0. -/
theorem spec_c2_witness :
    (write_fields_vtk convTest (some ["E", "rho"]) 0 "binary" none 24 false).files =
      if false then [convTest.path ++ "vtk_fields_" ++ istrOf 0]
      else ["E", "rho"].flatMap
        (sepFilesFor convTest.ts.fields_metadata convTest.path (istrOf 0)) :=
  spec_c2 convTest ["E", "rho"] 0 "binary" none 24 false rfl

theorem fieldsLoop_false (istr : String) (l : List String) (s : St) :
    fieldsLoop false istr l s = foldE (sepBody istr) l s := rfl

theorem fieldsLoop_true (istr : String) (l : List String) (s : St) :
    fieldsLoop true istr l s = foldE commonBody l s := rfl

theorem foldE_append_ok {σ α : Type} (f : σ → α → Except PyErr σ) (l1 l2 : List α)
    {s s1 : σ} (h : foldE f l1 s = (s1, none)) :
    foldE f (l1 ++ l2) s = foldE f l2 s1 := by
  induction l1 generalizing s with
  | nil =>
    have h1 : s = s1 := congrArg Prod.fst h
    subst h1
    rfl
  | cons x xs ih =>
    simp only [foldE] at h
    simp only [List.cons_append, foldE]
    cases hfx : f s x with
    | error e =>
      rw [hfx] at h
      exact absurd (congrArg Prod.snd h) (by simp)
    | ok s2 =>
      rw [hfx] at h
      exact ih h

theorem fieldsLoop_append_ok (cm : Bool) (istr : String) (l1 l2 : List String)
    {s s1 : St} (h : fieldsLoop cm istr l1 s = (s1, none)) :
    fieldsLoop cm istr (l1 ++ l2) s = fieldsLoop cm istr l2 s1 := by
  cases cm with
  | false =>
    rw [fieldsLoop_false] at h
    rw [fieldsLoop_false, fieldsLoop_false]
    exact foldE_append_ok (sepBody istr) l1 l2 h
  | true =>
    rw [fieldsLoop_true] at h
    rw [fieldsLoop_true, fieldsLoop_true]
    exact foldE_append_ok commonBody l1 l2 h

theorem sepBody_keyError {istr : String} {st : St} {f : String}
    (h : st.conv.ts.fields_metadata f = none) :
    sepBody istr st f = .error (.keyError f) := by
  unfold sepBody
  rw [h]

theorem commonBody_keyError {st : St} {f : String}
    (h : st.conv.ts.fields_metadata f = none) :
    commonBody st f = .error (.keyError f) := by
  unfold commonBody
  rw [h]

/-- C6: when the field loop reaches a field `f` that is absent from the reader's
metadata, `write_fields_vtk` aborts with exactly the `KeyError` of the metadata
lookup, and the files already written for the fields processed earlier in the
same call (the files of the reached state `st1`) are exactly the files of the
call — nothing is rolled back. -/
theorem spec_c6 (self : Converter) (fs1 : List String) (f : String) (fs2 : List String)
    (it : Int) (fmt : String) (z : Option Int) (nth : Int) (cm : Bool) (st1 : St)
    (hreach : fieldsLoop cm (istrOf it) fs1 (initSt (registerFields self it z nth cm))
      = (st1, none))
    (hmd : self.ts.fields_metadata f = none) :
    (write_fields_vtk self (some (fs1 ++ f :: fs2)) it fmt z nth cm).err
        = some (.keyError f) ∧
    (write_fields_vtk self (some (fs1 ++ f :: fs2)) it fmt z nth cm).files = st1.files := by
  have hts : st1.conv.ts = self.ts := by
    have hp := fieldsLoop_pres cm (istrOf it) fs1 (initSt (registerFields self it z nth cm))
    rw [hreach] at hp
    exact hp.1
  have hQ : fieldsLoop cm (istrOf it) (f :: fs2) st1 = (st1, some (.keyError f)) := by
    cases cm with
    | false =>
      rw [fieldsLoop_false]
      simp only [foldE]
      rw [sepBody_keyError (by rw [hts]; exact hmd)]
    | true =>
      rw [fieldsLoop_true]
      simp only [foldE]
      rw [commonBody_keyError (by rw [hts]; exact hmd)]
  have hAll : fieldsLoop cm (istrOf it) (fs1 ++ f :: fs2)
      (initSt (registerFields self it z nth cm)) = (st1, some (.keyError f)) :=
    (fieldsLoop_append_ok cm (istrOf it) fs1 (f :: fs2) hreach).trans hQ
  simp only [write_fields_vtk, Option.getD_some]
  rw [hAll]
  exact ⟨rfl, rfl⟩

/-- Witness for C6: the vector field `E` is processed (three files written),
then the field `miss`, absent from the metadata, aborts the call with its
`KeyError`. -/
theorem spec_c6_witness :
    (write_fields_vtk convTest (some (["E"] ++ "miss" :: [])) 0 "binary" none 24 false).err
        = some (.keyError "miss") ∧
    (write_fields_vtk convTest (some (["E"] ++ "miss" :: [])) 0 "binary" none 24 false).files
        = ((fieldsLoop false (istrOf 0) ["E"]
            (initSt (registerFields convTest 0 none 24 false))).1).files :=
  spec_c6 convTest ["E"] "miss" [] 0 "binary" none 24 false
    (fieldsLoop false (istrOf 0) ["E"] (initSt (registerFields convTest 0 none 24 false))).1
    rfl rfl

theorem sepLoop_nameError (istr : String) :
    ∀ (fs1 : List String) (f : String) (fs2 : List String) (st : St),
      st.comp = none →
      (∀ g ∈ fs1, ∃ t, st.conv.ts.fields_metadata g = some t ∧ t ≠ "vector") →
      st.conv.ts.fields_metadata f = some "scalar" →
      (foldE (sepBody istr) (fs1 ++ f :: fs2) st).2 = some (.nameError "comp") := by
  intro fs1
  induction fs1 with
  | nil =>
    intro f fs2 st hcomp hall hf
    simp only [List.nil_append, foldE]
    rw [show sepBody istr st f = .error (.nameError "comp") from by
      unfold sepBody; rw [hf]; simp [hcomp]]
  | cons g gs ih =>
    intro f fs2 st hcomp hall hf
    obtain ⟨t, hmd, hnv⟩ := hall g (List.mem_cons_self g gs)
    simp only [List.cons_append, foldE]
    by_cases hs : t = "scalar"
    · subst hs
      rw [show sepBody istr st g = .error (.nameError "comp") from by
        unfold sepBody; rw [hmd]; simp [hcomp]]
    · rw [sepBody_skip hmd hnv hs]
      exact ih f fs2 st hcomp (fun x hx => hall x (List.mem_cons_of_mem g hx)) hf

/-- C9: in `write_fields_vtk` with `CommonMesh=False`, when a scalar-typed field
is reached before any vector-typed field has been processed (every earlier field
has a declared type other than `vector`), the call raises `NameError` for the
never-bound local `comp`. -/
theorem spec_c9 (self : Converter) (fs1 : List String) (f : String) (fs2 : List String)
    (hall : ∀ g ∈ fs1, ∃ t, self.ts.fields_metadata g = some t ∧ t ≠ "vector")
    (hf : self.ts.fields_metadata f = some "scalar")
    (it : Int) (fmt : String) (z : Option Int) (nth : Int) :
    (write_fields_vtk self (some (fs1 ++ f :: fs2)) it fmt z nth false).err
      = some (.nameError "comp") := by
  have hrun := sepLoop_nameError (istrOf it) fs1 f fs2
    (initSt (registerFields self it z nth false)) rfl hall hf
  simp only [write_fields_vtk, Option.getD_some, fieldsLoop_false]
  rcases hfl : foldE (sepBody (istrOf it)) (fs1 ++ f :: fs2)
      (initSt (registerFields self it z nth false)) with ⟨st, o⟩
  rw [hfl] at hrun
  have ho : o = some (.nameError "comp") := hrun
  subst ho
  rfl

/-- Witness for C9: the scalar field `rho` heads the field list, so no vector
field has bound `comp` yet. -/
theorem spec_c9_witness :
    (write_fields_vtk convTest (some ([] ++ "rho" :: ["E"])) 0 "binary" none 24 false).err
      = some (.nameError "comp") :=
  spec_c9 convTest [] "rho" ["E"] (by simp) rfl 0 "binary" none 24
